import Mathlib

/-!
Verification of the cryptd layer-encryption tool.

Shallow embedding of the Go sources: the layer selector
(`filterLayerDescriptors`, `countLayers`, `isUserSelectedLayer`,
`isUserSelectedPlatform`), the recipient and private-key classifier
(`processRecipientKeys`, `processPwdString`, `processPrivateKeyFiles`),
the image-crypto orchestrator (`EncryptImage`, `DecryptImage`), the
side-channel payload protocol (`UnmarshalLayerToolDecryptData`) and the
stream copy loop of the `stream` command.

Go machine integers (`int32`, `uint32`) are modelled as `Int` with
explicit wrapping where a conversion or subtraction occurs.  Go pointers
to `ocispec.Platform` are modelled as `Option Nat`: a pointer is an
address (`Nat`), the nil pointer is `none`, and a separate heap function
`Nat → Platform` gives each address its pointee value.  This matters
because the Go source compares platform pointers with `==` / `!=`
(address equality), not the pointed-to values.  Fallible Go functions
returning `(T, error)` become `Except String T`; external collaborators
(file system, GPG, the containerd client, the crypto primitives) are
environment records of functions passed in explicitly.
-/

namespace Cryptd

instance {ε α : Type} [DecidableEq ε] [DecidableEq α] : DecidableEq (Except ε α) := fun a b => by
  cases a with
  | error e =>
    cases b with
    | error f => exact decidable_of_iff (e = f) (by simp)
    | ok y => exact isFalse (by simp)
  | ok x =>
    cases b with
    | error f => exact isFalse (by simp)
    | ok y => exact decidable_of_iff (x = y) (by simp)

/-- Two's-complement wrap of an `Int` into the `int32` range,
modelling Go `int32` arithmetic overflow. -/
def wrap32 (x : Int) : Int :=
  (x + 2 ^ 31) % 2 ^ 32 - 2 ^ 31

/-- Conversion of a Go `int32` value to `uint32`, as in `uint32(layerIndex)`:
reduction modulo `2^32` into `[0, 2^32)`. -/
def uint32ofInt (x : Int) : Nat :=
  (x % (2 ^ 32 : Int)).toNat

/-- An `ocispec.Platform` value (OS / architecture / variant). -/
structure Platform where
  os : String
  architecture : String
  variant : String
deriving DecidableEq, Repr

/-- An `ocispec.Descriptor`.  The `platform` field is the Go
`*ocispec.Platform` pointer: `none` is the nil pointer, `some a` is the
address `a`; the pointed-to value lives in a heap `Nat → Platform`. -/
structure Descriptor where
  mediaType : String
  digest : String
  size : Int
  platform : Option Nat
deriving DecidableEq, Repr

/-- `LayerInfo` pairs a per-platform layer index (Go `uint32`) with its
descriptor. -/
structure LayerInfo where
  Index : Nat
  Descriptor : Descriptor
deriving DecidableEq, Repr

/-- `isUserSelectedLayer` from the source: a layer is selected when the
selector list is empty, or contains the (positive) index or the negative
number `layerIndex - layersTotal` (an `int32` subtraction). -/
def isUserSelectedLayer (layerIndex layersTotal : Int) (layers : List Int) : Bool :=
  if layers.length = 0 then
    true
  else
    let negNumber := wrap32 (layerIndex - layersTotal)
    layers.any fun l => l == negNumber || l == layerIndex

/-- `isUserSelectedPlatform` from the source: an empty platform list
means all platforms; otherwise the descriptor's platform (dereferenced
through the heap) must match one entry under the external
platform-compatibility matcher.  The Go code would dereference a nil
platform pointer here; that path (nil pointer with a non-empty list) is
modelled as no match. -/
def isUserSelectedPlatform (heap : Nat → Platform) (matcher : Platform → Platform → Bool)
    (platform : Option Nat) (platformList : List Platform) : Bool :=
  if platformList.length = 0 then
    true
  else
    match platform with
    | none => false
    | some a => platformList.any fun p => matcher (heap a) p

/-- `countLayers` from the source: counts the descriptors whose platform
pointer equals the given pointer (address equality, nil included). -/
def countLayers (descs : List Descriptor) (platform : Option Nat) : Int :=
  descs.foldl (fun c desc => if desc.platform = platform then c + 1 else c) 0

/-- The loop body of `filterLayerDescriptors`: walks the remaining
descriptors carrying the current-platform pointer cursor, the running
layer index and the running layer total, exactly as the Go loop does.
The cursor/index/total update happens first; a descriptor passing both
the layer and the platform filter contributes a `LayerInfo` (with the
index converted to `uint32`) and is kept in the descriptor list. -/
def filterLoop (heap : Nat → Platform) (matcher : Platform → Platform → Bool)
    (alldescs : List Descriptor) (layers : List Int) (pl : List Platform)
    (curplat : Option Nat) (layerIndex layersTotal : Int) :
    List Descriptor → List LayerInfo × List Descriptor
  | [] => ([], [])
  | desc :: rest =>
    let st :=
      if curplat ≠ desc.platform then
        (desc.platform, (0 : Int), countLayers alldescs desc.platform)
      else
        (curplat, layerIndex + 1, layersTotal)
    let tail := filterLoop heap matcher alldescs layers pl st.1 st.2.1 st.2.2 rest
    if isUserSelectedLayer st.2.1 st.2.2 layers
        && isUserSelectedPlatform heap matcher st.1 pl then
      (⟨uint32ofInt st.2.1, desc⟩ :: tail.1, desc :: tail.2)
    else
      tail

/-- `filterLayerDescriptors` from the source: the loop started with a nil
current-platform cursor and zero index and total. -/
def filterLayerDescriptors (heap : Nat → Platform) (matcher : Platform → Platform → Bool)
    (alldescs : List Descriptor) (layers : List Int) (pl : List Platform) :
    List LayerInfo × List Descriptor :=
  filterLoop heap matcher alldescs layers pl none 0 0 alldescs

/-- The index-assignment rule as the code actually implements it, written
independently of the selector loop: carrying the previous platform
pointer (`prev`, initially the nil pointer) and the previous index,
a descriptor whose platform pointer equals `prev` gets the incremented
index, and any pointer change resets the index to `0`. -/
def resetRunIndices (prev : Option Nat) (i : Int) : List Descriptor → List Int
  | [] => []
  | d :: ds =>
    let j := if d.platform = prev then i + 1 else 0
    j :: resetRunIndices d.platform j ds

/-! ## Recipient and private-key classifier -/

/-- Bytes of a Go string (one entry per character code). -/
def strBytes (s : String) : List Nat :=
  s.data.map Char.toNat

/-- A Go string built from bytes, as in `string(password)`; `string(nil)`
is the empty string. -/
def bytesStr : Option (List Nat) → String
  | none => ""
  | some bs => String.mk (bs.map Char.ofNat)

/-- The external capabilities the classifier calls into: the file
system, file descriptors, and the `encutils` key/certificate sniffers.
`isPrivateKey` returns the Go pair `(bool, error)` with `none` for a nil
error; `isPasswordError` classifies a non-nil error (the Go
`IsPasswordError(nil)` is false, handled by `isPwdErrOpt`). -/
structure KeyEnv where
  readFile : String → Except String (List Nat)
  fdValid : Int → Bool
  fdRead : Int → Except String (List Nat)
  isPrivateKey : List Nat → Option (List Nat) → Bool × Option String
  isPasswordError : String → Bool
  isGPGPrivateKeyRing : List Nat → Bool
  isPublicKey : List Nat → Bool
  isCertificate : List Nat → Bool

/-- `encutils.IsPasswordError` applied to a possibly-nil error. -/
def isPwdErrOpt (env : KeyEnv) : Option String → Bool
  | none => false
  | some e => env.isPasswordError e

/-- Split a character list at every occurrence of `sep`, as Go
`strings.Split` does on strings: the empty input yields one empty part,
and `n` separators yield `n + 1` parts. -/
def splitChar (sep : Char) : List Char → List (List Char)
  | [] => [[]]
  | c :: rest =>
    match splitChar sep rest with
    | [] => [[c]]
    | h :: t => if c = sep then [] :: h :: t else (c :: h) :: t

/-- The parts of a Go `strings.Split(s, ":")`. -/
def colonParts (s : String) : List String :=
  (splitChar ':' s.data).map String.mk

/-- Go `strings.HasPrefix(s, p)`. -/
def strStartsWith (s p : String) : Bool :=
  p.data.isPrefixOf s.data

/-- Go `s[n:]` on a string (drop the first `n` characters). -/
def strDrop (s : String) (n : Nat) : String :=
  String.mk (s.data.drop n)

/-- Decimal digit accumulation for `strconv.Atoi`. -/
def parseDigits : List Char → Nat → Option Nat
  | [], acc => some acc
  | c :: rest, acc =>
    if 48 ≤ c.toNat ∧ c.toNat ≤ 57 then
      parseDigits rest (acc * 10 + (c.toNat - 48))
    else
      none

/-- Go `strconv.Atoi`: an optional sign followed by at least one decimal
digit (the 64-bit range check is not modelled). -/
def goAtoi (s : String) : Option Int :=
  match s.data with
  | [] => none
  | '-' :: rest =>
    match rest with
    | [] => none
    | _ => (parseDigits rest 0).map fun n => -(n : Int)
  | '+' :: rest =>
    match rest with
    | [] => none
    | _ => (parseDigits rest 0).map fun n => (n : Int)
  | l => (parseDigits l 0).map fun n => (n : Int)

/-- Split a string at its first colon, as `strings.Index(s, ":")` does:
`none` when the string has no colon, otherwise the part before the first
colon and everything after it. -/
def firstColonSplit (s : String) : Option (String × String) :=
  match splitChar ':' s.data with
  | [] => none
  | [_] => none
  | p :: rest => some (String.mk p, String.mk (List.intercalate [':'] rest))

/-- The classification of one recipient string into one of the three
buckets of `processRecipientKeys`. -/
inductive RecipientBucket where
  | pgp (v : List Nat)
  | pubkey (v : List Nat)
  | x509 (v : List Nat)
deriving DecidableEq, Repr

/-- The loop body of `processRecipientKeys` for a single recipient
string: split at the first colon (no colon is a format error), then
switch on the protocol: `pgp` takes the value bytes, `jwe` reads the
file and requires a public key, `pkcs7` reads the file and requires an
x509 certificate, anything else is a format error. -/
def classifyRecipient (env : KeyEnv) (recipient : String) : Except String RecipientBucket :=
  match firstColonSplit recipient with
  | none => .error "Invalid recipient format"
  | some (protocol, value) =>
    if protocol = "pgp" then
      .ok (.pgp (strBytes value))
    else if protocol = "jwe" then
      match env.readFile value with
      | .error e => .error ("Unable to read file: " ++ e)
      | .ok tmp =>
        if env.isPublicKey tmp then .ok (.pubkey tmp)
        else .error "File provided is not a public key"
    else if protocol = "pkcs7" then
      match env.readFile value with
      | .error e => .error ("Unable to read file: " ++ e)
      | .ok tmp =>
        if env.isCertificate tmp then .ok (.x509 tmp)
        else .error "File provided is not an x509 cert"
    else
      .error "Provided protocol not recognized"

/-- `processRecipientKeys` from the source: classifies every recipient,
stopping at the first error, and returns the three buckets
`(gpgRecipients, pubkeys, x509s)` in input order. -/
def processRecipientKeys (env : KeyEnv) :
    List String → Except String (List (List Nat) × List (List Nat) × List (List Nat))
  | [] => .ok ([], [], [])
  | recipient :: rest =>
    match classifyRecipient env recipient with
    | .error e => .error e
    | .ok b =>
      match processRecipientKeys env rest with
      | .error e => .error e
      | .ok (g, p, x) =>
        match b with
        | .pgp v => .ok (v :: g, p, x)
        | .pubkey v => .ok (g, v :: p, x)
        | .x509 v => .ok (g, p, v :: x)

/-- `processPwdString` from the source: resolve a password specifier of
the form `file=...` (read the file), `pass=...` (the literal bytes),
`fd=...` (parse the descriptor, check validity, read up to a 64-byte
buffer and keep the bytes actually read), or, failing every prefix
check, the string itself as a literal password. -/
def processPwdString (env : KeyEnv) (pwdString : String) : Except String (List Nat) :=
  if strStartsWith pwdString "file=" then
    env.readFile (strDrop pwdString 5)
  else if strStartsWith pwdString "pass=" then
    .ok (strBytes (strDrop pwdString 5))
  else if strStartsWith pwdString "fd=" then
    let fdStr := strDrop pwdString 3
    match goAtoi fdStr with
    | none => .error ("could not parse file descriptor " ++ fdStr)
    | some fd =>
      if env.fdValid fd then
        match env.fdRead fd with
        | .error e => .error ("could not read from file descriptor: " ++ e)
        | .ok pwd => .ok (pwd.take 64)
      else
        .error (fdStr ++ " is not a valid file descriptor")
  else
    .ok (strBytes pwdString)

/-- The password-extraction step of the `processPrivateKeyFiles` loop
body: `strings.Split` the whole string on every colon; only when that
yields exactly two parts is the second part resolved through
`processPwdString` (otherwise the password stays nil); the keyfile is
the first part. -/
def parseKeyfilePwd (env : KeyEnv) (s : String) : Except String (String × Option (List Nat)) :=
  let parts := colonParts s
  if parts.length = 2 then
    match processPwdString env (parts.getD 1 "") with
    | .error e => .error e
    | .ok p => .ok (parts.getD 0 "", some p)
  else
    .ok (parts.getD 0 "", none)

/-- `processPrivateKeyFiles` from the source: for each entry, extract
keyfile and optional password, read the keyfile, and classify: a
password error from the private-key check propagates immediately;
otherwise a private key goes into the `privkeys` lists, a GPG secret
keyring into the keyring lists, and anything else is the unidentified
error (which echoes the filename and the resolved password).  Returns
`(gpgSecretKeyRingFiles, gpgSecretKeyPasswords, privkeys,
privkeysPasswords)`. -/
def processPrivateKeyFiles (env : KeyEnv) :
    List String →
      Except String (List (List Nat) × List (Option (List Nat))
        × List (List Nat) × List (Option (List Nat)))
  | [] => .ok ([], [], [], [])
  | keyfileAndPwd :: rest =>
    match parseKeyfilePwd env keyfileAndPwd with
    | .error e => .error e
    | .ok (keyfile, password) =>
      match env.readFile keyfile with
      | .error e => .error e
      | .ok tmp =>
        let pr := env.isPrivateKey tmp password
        if isPwdErrOpt env pr.2 then
          .error (pr.2.getD "")
        else if pr.1 then
          match processPrivateKeyFiles env rest with
          | .error e => .error e
          | .ok (g, gp, p, pp) => .ok (g, gp, tmp :: p, password :: pp)
        else if env.isGPGPrivateKeyRing tmp then
          match processPrivateKeyFiles env rest with
          | .error e => .error e
          | .ok (g, gp, p, pp) => .ok (tmp :: g, password :: gp, p, pp)
        else
          .error ("unidentified private key in file " ++ keyfile
            ++ " (password=" ++ bytesStr password ++ ")")

/-- A concrete classifier environment for evaluating the definitions:
one readable key file `k.pem` whose content passes the private-key
check with any password, and which is neither a public key nor a
certificate. -/
def sampleEnv : KeyEnv where
  readFile := fun f => if f = "k.pem" then .ok [1, 2, 3] else .error "no such file"
  fdValid := fun _ => false
  fdRead := fun _ => .error "closed"
  isPrivateKey := fun _ _ => (true, none)
  isPasswordError := fun _ => false
  isGPGPrivateKeyRing := fun _ => false
  isPublicKey := fun _ => false
  isCertificate := fun _ => false

/-- A concrete classifier environment whose private-key check fails with
a password error; its keyring sniffer answers true, so any fall-through
to GPG classification would be visible. -/
def pwdErrEnv : KeyEnv where
  readFile := fun f => if f = "k.pem" then .ok [1, 2, 3] else .error "no such file"
  fdValid := fun _ => false
  fdRead := fun _ => .error "closed"
  isPrivateKey := fun _ _ => (false, some "private key requires password")
  isPasswordError := fun e => e = "private key requires password"
  isGPGPrivateKeyRing := fun _ => true
  isPublicKey := fun _ => false
  isCertificate := fun _ => false

/-! ## Image crypto orchestrator -/

/-- A containerd image handle: name, target descriptor and labels. -/
structure Image where
  name : String
  target : Descriptor
  labels : List (String × String)
deriving DecidableEq, Repr

/-- An `images.Image` record as passed to `ImageService.Create`. -/
structure ImageRecord where
  name : String
  target : Descriptor
  labels : List (String × String)
deriving DecidableEq, Repr

/-- The `CryptOptConfig` options accumulated by `WithPlatforms` /
`WithLayers`. -/
structure CryptOptConfig where
  Platforms : List String
  Layers : List Int
deriving DecidableEq, Repr

/-- External capabilities of the orchestrator: the platform parser, the
image-layer-descriptor reader, lease acquisition, the per-layer
encrypt/decrypt transforms of the external `imgenc` package (returning a
new top descriptor and a modified flag), and the image service's
`Create`. -/
structure ClientEnv where
  heap : Nat → Platform
  matcher : Platform → Platform → Bool
  parsePlatform : String → Except String Platform
  getImageLayerDescriptors : Descriptor → Except String (List Descriptor)
  lease : Except String Unit
  encryptTransform : (Descriptor → Bool) → Except String (Descriptor × Bool)
  decryptTransform : (Descriptor → Bool) → Except String (Descriptor × Bool)
  createImage : ImageRecord → Except String ImageRecord

/-- `parsePlatformArray` from the source: parse every specifier,
stopping at the first parse error. -/
def parsePlatformArray (env : ClientEnv) : List String → Except String (List Platform)
  | [] => .ok []
  | specifier :: rest =>
    match env.parsePlatform specifier with
    | .error e => .error e
    | .ok spec =>
      match parsePlatformArray env rest with
      | .error e => .error e
      | .ok speclist => .ok (spec :: speclist)

/-- The layer-filter predicate built by `createLayerFilter`: membership
of the descriptor's digest string among the selected descriptors. -/
def mkLayerFilter (descs : List Descriptor) : Descriptor → Bool :=
  fun d => descs.any fun desc => desc.digest == d.digest

/-- `createLayerFilter` from the source: fetch all layer descriptors of
the image target, select with `filterLayerDescriptors`, and test digest
membership. -/
def createLayerFilter (env : ClientEnv) (desc : Descriptor) (layers : List Int)
    (platformList : List Platform) : Except String (Descriptor → Bool) :=
  match env.getImageLayerDescriptors desc with
  | .error e => .error e
  | .ok alldescs =>
    .ok (mkLayerFilter (filterLayerDescriptors env.heap env.matcher alldescs layers platformList).2)

/-- `EncryptImage` from the source: parse the platforms, build the layer
filter, take the lease, run the per-layer encrypt transform; when it
reports `modified = false` return the original image handle unchanged,
otherwise create a new image record under the new name with the new
target and the original labels.  The second component lists the records
passed to the image service's `Create` (empty means nothing was
registered). -/
def EncryptImage (env : ClientEnv) (image : Image) (name : String)
    (optConfig : CryptOptConfig) : Except String Image × List ImageRecord :=
  match parsePlatformArray env optConfig.Platforms with
  | .error e => (.error e, [])
  | .ok pl =>
    match createLayerFilter env image.target optConfig.Layers pl with
    | .error e => (.error e, [])
    | .ok lf =>
      match env.lease with
      | .error e => (.error e, [])
      | .ok _ =>
        match env.encryptTransform lf with
        | .error e => (.error e, [])
        | .ok (desc, modified) =>
          if !modified then
            (.ok image, [])
          else
            let newImage : ImageRecord := ⟨name, desc, image.labels⟩
            match env.createImage newImage with
            | .error e => (.error e, [newImage])
            | .ok i => (.ok ⟨i.name, i.target, i.labels⟩, [newImage])

/-- `DecryptImage` from the source: identical to `EncryptImage` with the
per-layer decrypt transform. -/
def DecryptImage (env : ClientEnv) (image : Image) (name : String)
    (optConfig : CryptOptConfig) : Except String Image × List ImageRecord :=
  match parsePlatformArray env optConfig.Platforms with
  | .error e => (.error e, [])
  | .ok pl =>
    match createLayerFilter env image.target optConfig.Layers pl with
    | .error e => (.error e, [])
    | .ok lf =>
      match env.lease with
      | .error e => (.error e, [])
      | .ok _ =>
        match env.decryptTransform lf with
        | .error e => (.error e, [])
        | .ok (desc, modified) =>
          if !modified then
            (.ok image, [])
          else
            let newImage : ImageRecord := ⟨name, desc, image.labels⟩
            match env.createImage newImage with
            | .error e => (.error e, [newImage])
            | .ok i => (.ok ⟨i.name, i.target, i.labels⟩, [newImage])

/-- A concrete orchestrator environment: one layer descriptor, both
transforms report no modification, lease and creation succeed. -/
def sampleClientEnv : ClientEnv where
  heap := fun _ => ⟨"linux", "amd64", ""⟩
  matcher := fun p q => p = q
  parsePlatform := fun s =>
    if s = "linux/amd64" then .ok ⟨"linux", "amd64", ""⟩ else .error "unknown platform"
  getImageLayerDescriptors := fun _ => .ok [⟨"tar", "sha256:l1", 7, some 0⟩]
  lease := .ok ()
  encryptTransform := fun _ => .ok (⟨"manifest", "sha256:top", 9, none⟩, false)
  decryptTransform := fun _ => .ok (⟨"manifest", "sha256:top", 9, none⟩, false)
  createImage := fun r => .ok r

/-- A concrete image handle for the orchestrator witness. -/
def sampleImage : Image :=
  ⟨"docker.io/library/app:latest", ⟨"manifest", "sha256:top", 9, none⟩, [("k", "v")]⟩

/-! ## Side-channel payload protocol -/

/-- The external `encconfig.DecryptConfig`, an opaque parameter bag. -/
structure DecryptConfig where
  Parameters : List (String × List (List Nat))
deriving DecidableEq, Repr

/-- `ProcessorPayload` from the source: the decrypt configuration and
the layer descriptor crossing the process boundary. -/
structure ProcessorPayload where
  DecryptConfig : DecryptConfig
  Descriptor : Descriptor
deriving DecidableEq, Repr

/-- The type URL under which `ProcessorPayload` is registered at package
load. -/
def payloadUrl : String := "com.ibm.research.v1.ProcessorPayload"

/-- The decoded body of a protobuf `Any` envelope: either a
`ProcessorPayload` or the body bytes of some other message type.  The
byte-level protobuf codec is the external `gogo/protobuf`; the envelope
is modelled at message level. -/
inductive ProtoVal where
  | payload (p : ProcessorPayload)
  | other (data : List Nat)
deriving DecidableEq, Repr

/-- A `types.Any` envelope: the type tag and the wrapped message. -/
structure AnyMsg where
  typeUrl : String
  value : ProtoVal
deriving DecidableEq, Repr

/-- The value `typeurl.UnmarshalAny` returns: a typed Go value, here
either a `*ProcessorPayload` or a value of some other registered type. -/
inductive Dyn where
  | payload (p : ProcessorPayload)
  | otherVal (tag : String)
deriving DecidableEq, Repr

/-- `typeurl.MarshalAny` on a `ProcessorPayload`, per its registration
under `payloadUrl`. -/
def marshalAnyPayload (p : ProcessorPayload) : AnyMsg :=
  ⟨payloadUrl, .payload p⟩

/-- The `Any` envelope built by `WithDecryptedImageUnpack` for one layer:
the payload bundles the descriptor with the decrypt configuration. -/
def processorPayloadAny (config : DecryptConfig) (desc : Descriptor) : AnyMsg :=
  marshalAnyPayload ⟨config, desc⟩

/-- `typeurl.UnmarshalAny`, modelled over the registry: `payloadUrl` is
registered for `ProcessorPayload`, `registryOther` lists the URLs of the
other registered types, and an unregistered URL fails with the not-found
error naming it. -/
def unmarshalAny (registryOther : List String) (a : AnyMsg) : Except String Dyn :=
  if a.typeUrl = payloadUrl then
    match a.value with
    | .payload p => .ok (.payload p)
    | .other _ => .error ("cannot unmarshal payload for " ++ a.typeUrl)
  else if registryOther.contains a.typeUrl then
    .ok (.otherVal a.typeUrl)
  else
    .error ("type with url " ++ a.typeUrl ++ ": not found")

/-- `UnmarshalLayerToolDecryptData` from the source: unmarshal the
envelope, then require the value to be a `*ProcessorPayload`; any other
type yields the unknown-data-type error naming the envelope's type tag,
and an `UnmarshalAny` failure is wrapped. -/
def UnmarshalLayerToolDecryptData (registryOther : List String) (pb : AnyMsg) :
    Except String ProcessorPayload :=
  match unmarshalAny registryOther pb with
  | .error e => .error ("could not UnmarshalAny() the decrypt data: " ++ e)
  | .ok (.payload p) => .ok p
  | .ok (.otherVal _) => .error ("received an unknown data type " ++ pb.typeUrl)

/-! ## Stream copy loop -/

/-- The chunk size of the stream command's copy loop (`10*1024`). -/
def chunkSize : Nat := 10 * 1024

/-- The copy loop of the stream command.  The decrypted source is the
remaining plaintext `content` followed by a terminal event: `none` for
clean end-of-stream (io.EOF), `some e` for a read error.  `io.CopyN`
moves one `chunkSize` chunk per iteration; a short read ends the loop,
returning nil exactly on clean EOF and the wrapped error otherwise.
Returns the bytes written to the output and the command's error. -/
def streamCopyLoop (content : List Nat) (term : Option String) (out : List Nat) :
    List Nat × Option String :=
  if _h : chunkSize ≤ content.length then
    streamCopyLoop (content.drop chunkSize) term (out ++ content.take chunkSize)
  else
    match term with
    | none => (out ++ content, none)
    | some e => (out ++ content, some ("could not copy data: " ++ e))
termination_by content.length
decreasing_by
  simp only [List.length_drop]
  have hpos : 0 < chunkSize := by norm_num [chunkSize]
  omega

/-! ## Crypto config composer (modelled from the spec) -/

/-- Modelled from the spec: one backend configuration (GPG, JWE or
PKCS7) with its identity and cryptographic material.  The concrete
`encconfig` package is an external collaborator whose source is not part
of this repository. -/
structure Backend where
  id : String
  material : List Nat
deriving DecidableEq, Repr

/-- Modelled from the spec: a `CryptoConfig` accumulates encrypt-side
and decrypt-side backend configurations. -/
structure CryptoConfig where
  encBackends : List Backend
  decBackends : List Backend
deriving DecidableEq, Repr

/-- Modelled from the spec: the configuration with zero backends. -/
def emptyCryptoConfig : CryptoConfig := ⟨[], []⟩

/-- Modelled from the spec: order-preserving union of backend lists,
idempotent by backend identity (a backend already present is not added
again). -/
def backendUnion (a b : List Backend) : List Backend :=
  a ++ b.filter fun x => decide (x ∉ a)

/-- Modelled from the spec: combining two crypto configurations takes
the union of the encrypt-side and of the decrypt-side backends. -/
def combineTwo (c1 c2 : CryptoConfig) : CryptoConfig :=
  ⟨backendUnion c1.encBackends c2.encBackends,
   backendUnion c1.decBackends c2.decBackends⟩

/-- Modelled from the spec: `CombineCryptoConfigs` folds the supplied
configurations, in order, into one combined configuration. -/
def CombineCryptoConfigs (ccs : List CryptoConfig) : CryptoConfig :=
  ccs.foldl combineTwo emptyCryptoConfig

lemma wrap32_eq_self (x : Int) (hlo : -2 ^ 31 ≤ x) (hhi : x < 2 ^ 31) : wrap32 x = x := by
  unfold wrap32
  have h0 : 0 ≤ x + 2 ^ 31 := by omega
  have h1 : x + 2 ^ 31 < 2 ^ 32 := by omega
  rw [Int.emod_eq_of_lt h0 h1]
  omega

lemma countLayers_eq_filter_length (descs : List Descriptor) (p : Option Nat) :
    countLayers descs p = ((descs.filter fun d => d.platform = p).length : Int) := by
  suffices h : ∀ c : Int,
      descs.foldl (fun c desc => if desc.platform = p then c + 1 else c) c =
        c + ((descs.filter fun d => d.platform = p).length : Int) by
    simpa [countLayers] using h 0
  induction descs with
  | nil => intro c; simp
  | cons d rest ih =>
    intro c
    by_cases hd : d.platform = p
    · simp [List.filter_cons, hd, ih]
      ring
    · simp [List.filter_cons, hd, ih]

lemma filterLoop_empty_filters (heap : Nat → Platform) (matcher : Platform → Platform → Bool)
    (all : List Descriptor) (rem : List Descriptor) :
    ∀ (cp : Option Nat) (i t : Int),
      filterLoop heap matcher all [] [] cp i t rem =
        (List.zipWith (fun j d => LayerInfo.mk (uint32ofInt j) d)
          (resetRunIndices cp i rem) rem, rem) := by
  induction rem with
  | nil => intro cp i t; rfl
  | cons d rest ih =>
    intro cp i t
    by_cases hc : cp = d.platform
    · simp only [filterLoop, resetRunIndices, hc, ne_eq, not_true_eq_false, if_false,
        if_pos rfl, isUserSelectedLayer, isUserSelectedPlatform, List.length_nil,
        if_true, Bool.and_self, ih]
      rfl
    · have hc' : ¬ d.platform = cp := fun h => hc h.symm
      simp only [filterLoop, resetRunIndices, ne_eq, hc, not_false_eq_true, if_true,
        if_neg hc', isUserSelectedLayer, isUserSelectedPlatform, List.length_nil,
        Bool.and_self, ih]
      rfl

/-- Concrete input for the C1 counterexample: a heap in which the two
platform pointers 0 and 1 both point to the same platform value. -/
def cexHeap : Nat → Platform := fun _ => ⟨"linux", "amd64", ""⟩

/-- Concrete platform matcher (value equality) for the C1 counterexample. -/
def cexMatcher : Platform → Platform → Bool := fun p q => p = q

/-- Two descriptors whose platform pointers differ (addresses 0 and 1)
while their platform values coincide under `cexHeap`. -/
def cexDescs : List Descriptor :=
  [⟨"", "sha256:d1", 0, some 0⟩, ⟨"", "sha256:d2", 0, some 1⟩]

/-- Claim C1 counterexample: on a descriptor list whose two platform
pointers differ but carry the same platform value, the code resets the
running index at the second descriptor instead of incrementing it (both
selected layers get index 0, where the claim requires indices 0 and 1),
and layersTotal is computed per pointer (1) rather than per value (2):
the selector [-2], which under the claim would select the first of the
two layers of this platform value, selects nothing. -/
theorem filterLayerDescriptors_value_reset_cex :
    cexHeap 0 = cexHeap 1
    ∧ (filterLayerDescriptors cexHeap cexMatcher cexDescs [] []).1.map LayerInfo.Index
        = [0, 0]
    ∧ (filterLayerDescriptors cexHeap cexMatcher cexDescs [-2] []).1 = [] := by
  refine ⟨rfl, ?_, ?_⟩ <;> decide

/-- Claim C1 (amended): the layer selector iterates the flat descriptor
list in manifest order with a current-platform cursor that starts as the
nil pointer; the running index is reset to 0 exactly when the
descriptor's platform pointer differs from the cursor and is incremented
by 1 otherwise (so a leading run of nil-platform descriptors, equal to
the initial cursor, starts at index 1 and keeps layersTotal 0), and at
each reset layersTotal is recomputed as the number of descriptors in the
whole list sharing that platform pointer.  Consequently, with no layer
or platform filter, every descriptor is kept in manifest order and the
emitted indices are exactly those of the reset/increment rule
`resetRunIndices`. -/
theorem filterLayerDescriptors_indices (heap : Nat → Platform)
    (matcher : Platform → Platform → Bool) (alldescs : List Descriptor) :
    (filterLayerDescriptors heap matcher alldescs [] []).1
      = List.zipWith (fun j d => LayerInfo.mk (uint32ofInt j) d)
          (resetRunIndices none 0 alldescs) alldescs
    ∧ (filterLayerDescriptors heap matcher alldescs [] []).2 = alldescs
    ∧ ∀ p, countLayers alldescs p
        = ((alldescs.filter fun d => d.platform = p).length : Int) := by
  refine ⟨?_, ?_, fun p => countLayers_eq_filter_length alldescs p⟩
  · rw [filterLayerDescriptors, filterLoop_empty_filters]
  · rw [filterLayerDescriptors, filterLoop_empty_filters]

/-- Claim C2: positive/negative selector symmetry.  For a platform with
`N` layers (in the `int32` range) and an index `i` in `[0, N)`, any
selector list containing `i` selects layer `i`, and so does any selector
list containing `i - N`: the two selector forms are equivalent. -/
theorem isUserSelectedLayer_neg_symm (i N : Int) (layers : List Int)
    (h0 : 0 ≤ i) (h1 : i < N) (hN : N ≤ 2 ^ 31 - 1)
    (hmem : i ∈ layers ∨ i - N ∈ layers) :
    isUserSelectedLayer i N layers = true := by
  have hne : layers.length ≠ 0 := by
    rcases hmem with h | h <;>
      exact fun hlen => by simp [List.length_eq_zero.mp hlen] at h
  have hw : wrap32 (i - N) = i - N := by
    apply wrap32_eq_self <;> omega
  unfold isUserSelectedLayer
  rw [if_neg hne]
  simp only [hw, List.any_eq_true]
  rcases hmem with h | h
  · exact ⟨i, h, by simp⟩
  · exact ⟨i - N, h, by simp⟩

/-- Witness for Claim C2 at `i = 1`, `N = 3`, selector list `[-2]`:
`1 - 3 = -2` is in the list, so layer 1 of 3 is selected. -/
theorem isUserSelectedLayer_neg_symm_witness :
    isUserSelectedLayer 1 3 [-2] = true :=
  isUserSelectedLayer_neg_symm 1 3 [-2] (by decide) (by decide) (by decide)
    (Or.inr (by decide))

lemma splitChar_ne_nil (sep : Char) (l : List Char) : splitChar sep l ≠ [] := by
  cases l with
  | nil => simp [splitChar]
  | cons c rest =>
    simp only [splitChar]
    cases splitChar sep rest with
    | nil => simp
    | cons h t => by_cases hc : c = sep <;> simp [hc]

lemma colonParts_ne_nil (s : String) : colonParts s ≠ [] := by
  simpa [colonParts] using splitChar_ne_nil ':' s.data

lemma processRecipientKeys_singleton (env : KeyEnv) (s : String) :
    processRecipientKeys env [s] =
      match classifyRecipient env s with
      | .error e => .error e
      | .ok (.pgp v) => .ok ([v], [], [])
      | .ok (.pubkey v) => .ok ([], [v], [])
      | .ok (.x509 v) => .ok ([], [], [v]) := by
  cases h : classifyRecipient env s with
  | error e => simp [processRecipientKeys, h]
  | ok b => cases b <;> simp [processRecipientKeys, h]

/-- Claim C6: classification of a recipient string is mutually exclusive
and exhaustive.  A string with no colon gives the format error; a
protocol other than pgp, jwe or pkcs7 gives the unrecognized-protocol
error; a jwe (respectively pkcs7) file whose content fails the
public-key (certificate) check gives the corresponding content error,
never a reclassification; and every input yields either an error or a
single entry in exactly one of the three buckets. -/
theorem processRecipientKeys_classification (env : KeyEnv) (s : String) :
    (firstColonSplit s = none →
      processRecipientKeys env [s] = .error "Invalid recipient format")
    ∧ (∀ proto v, firstColonSplit s = some (proto, v) →
        proto ≠ "pgp" → proto ≠ "jwe" → proto ≠ "pkcs7" →
        processRecipientKeys env [s] = .error "Provided protocol not recognized")
    ∧ (∀ v tmp, firstColonSplit s = some ("jwe", v) →
        env.readFile v = .ok tmp → env.isPublicKey tmp = false →
        processRecipientKeys env [s] = .error "File provided is not a public key")
    ∧ (∀ v tmp, firstColonSplit s = some ("pkcs7", v) →
        env.readFile v = .ok tmp → env.isCertificate tmp = false →
        processRecipientKeys env [s] = .error "File provided is not an x509 cert")
    ∧ ((∃ e, processRecipientKeys env [s] = .error e)
        ∨ (∃ v, processRecipientKeys env [s] = .ok ([v], [], []))
        ∨ (∃ v, processRecipientKeys env [s] = .ok ([], [v], []))
        ∨ (∃ v, processRecipientKeys env [s] = .ok ([], [], [v]))) := by
  rw [processRecipientKeys_singleton]
  refine ⟨?_, ?_, ?_, ?_, ?_⟩
  · intro h
    simp [classifyRecipient, h]
  · intro proto v h hp hj hk
    simp [classifyRecipient, h, hp, hj, hk]
  · intro v tmp h hrf hpk
    simp [classifyRecipient, h, hrf, hpk]
  · intro v tmp h hrf hpc
    simp [classifyRecipient, h, hrf, hpc]
  · cases hc : classifyRecipient env s with
    | error e => exact Or.inl ⟨e, by simp⟩
    | ok b =>
      cases b with
      | pgp v => exact Or.inr (Or.inl ⟨v, by simp⟩)
      | pubkey v => exact Or.inr (Or.inr (Or.inl ⟨v, by simp⟩))
      | x509 v => exact Or.inr (Or.inr (Or.inr ⟨v, by simp⟩))

/-- Witness for Claim C6 against `sampleEnv`: a string with no colon,
an unknown protocol, a jwe file that is not a public key and a pkcs7
file that is not a certificate each give their dedicated error. -/
theorem processRecipientKeys_classification_witness :
    processRecipientKeys sampleEnv ["nocolon"] = .error "Invalid recipient format"
    ∧ processRecipientKeys sampleEnv ["abc:x"] = .error "Provided protocol not recognized"
    ∧ processRecipientKeys sampleEnv ["jwe:k.pem"] = .error "File provided is not a public key"
    ∧ processRecipientKeys sampleEnv ["pkcs7:k.pem"] = .error "File provided is not an x509 cert" :=
  ⟨(processRecipientKeys_classification sampleEnv "nocolon").1 (by decide),
   (processRecipientKeys_classification sampleEnv "abc:x").2.1 "abc" "x"
     (by decide) (by decide) (by decide) (by decide),
   (processRecipientKeys_classification sampleEnv "jwe:k.pem").2.2.1 "k.pem" [1, 2, 3]
     (by decide) rfl rfl,
   (processRecipientKeys_classification sampleEnv "pkcs7:k.pem").2.2.2.1 "k.pem" [1, 2, 3]
     (by decide) rfl rfl⟩

/-- Claim C4 counterexample: on the specifier `k.pem:pass=a:b` the code
extracts no password at all (`strings.Split` yields three parts, and
only a two-part split is treated as carrying a password), although
splitting at the first colon would resolve the password specifier
`pass=a:b` to the literal bytes of `a:b`. -/
theorem processPrivateKeyFiles_first_colon_cex :
    processPrivateKeyFiles sampleEnv ["k.pem:pass=a:b"] = .ok ([], [], [[1, 2, 3]], [none])
    ∧ processPwdString sampleEnv "pass=a:b" = .ok (strBytes "a:b")
    ∧ (none : Option (List Nat)) ≠ some (strBytes "a:b") := by
  exact ⟨by decide, by decide, by decide⟩

/-- Claim C4 (amended): a private-key specifier is split on every colon;
a password specifier is extracted (and resolved through
`processPwdString`) only when that split yields exactly two parts, i.e.
when the string contains exactly one colon; with zero or two and more
colons the password stays nil.  The keyfile is always the part before
the first colon. -/
theorem processPrivateKeyFiles_password_split (env : KeyEnv) (s : String) (tmp pw : List Nat) :
    (((colonParts s).length = 2 →
      processPwdString env ((colonParts s).getD 1 "") = .ok pw →
      env.readFile ((colonParts s).getD 0 "") = .ok tmp →
      env.isPrivateKey tmp (some pw) = (true, none) →
      processPrivateKeyFiles env [s] = .ok ([], [], [tmp], [some pw]))
    ∧ ((colonParts s).length ≠ 2 →
      env.readFile ((colonParts s).getD 0 "") = .ok tmp →
      env.isPrivateKey tmp none = (true, none) →
      processPrivateKeyFiles env [s] = .ok ([], [], [tmp], [none]))) := by
  constructor
  · intro hlen hpw hrf hpk
    rcases List.length_eq_two.mp hlen with ⟨a, b, hab⟩
    rw [hab] at hpw hrf
    simp at hpw hrf
    simp [processPrivateKeyFiles, parseKeyfilePwd, hab, hpw, hrf, hpk, isPwdErrOpt]
  · intro hlen hrf hpk
    obtain ⟨a, t, hat⟩ := List.exists_cons_of_ne_nil (colonParts_ne_nil s)
    rw [hat] at hlen hrf
    simp at hrf
    have ht : t.length ≠ 1 := by simpa using hlen
    simp [processPrivateKeyFiles, parseKeyfilePwd, hat, ht, hrf, hpk, isPwdErrOpt]

/-- Witness for Claim C4 (amended): `k.pem` alone gets a nil password;
`k.pem:pass=h2` (exactly one colon) gets the literal password `h2`. -/
theorem processPrivateKeyFiles_password_split_witness :
    processPrivateKeyFiles sampleEnv ["k.pem"] = .ok ([], [], [[1, 2, 3]], [none])
    ∧ processPrivateKeyFiles sampleEnv ["k.pem:pass=h2"]
        = .ok ([], [], [[1, 2, 3]], [some (strBytes "h2")]) :=
  ⟨(processPrivateKeyFiles_password_split sampleEnv "k.pem" [1, 2, 3] []).2
     (by decide) rfl rfl,
   (processPrivateKeyFiles_password_split sampleEnv "k.pem:pass=h2" [1, 2, 3]
       (strBytes "h2")).1 (by decide) (by decide) rfl rfl⟩

/-- Claim C5: when the private-key check fails with a password error,
`processPrivateKeyFiles` propagates exactly that error immediately,
whatever the remaining entries are and whatever the GPG-keyring sniffer
would say, and never reaches the generic unidentified-key error. -/
theorem processPrivateKeyFiles_pwd_error (env : KeyEnv) (s : String) (rest : List String)
    (kf : String) (password : Option (List Nat)) (tmp : List Nat) (b : Bool) (e : String)
    (hparse : parseKeyfilePwd env s = .ok (kf, password))
    (hread : env.readFile kf = .ok tmp)
    (hpriv : env.isPrivateKey tmp password = (b, some e))
    (herr : env.isPasswordError e = true) :
    processPrivateKeyFiles env (s :: rest) = .error e := by
  simp [processPrivateKeyFiles, hparse, hread, hpriv, isPwdErrOpt, herr]

/-- Witness for Claim C5 against `pwdErrEnv`: the password error is
returned as-is, with a second entry pending and a keyring sniffer that
answers true, showing no fall-through happened. -/
theorem processPrivateKeyFiles_pwd_error_witness :
    processPrivateKeyFiles pwdErrEnv ["k.pem", "other"]
      = .error "private key requires password" :=
  processPrivateKeyFiles_pwd_error pwdErrEnv "k.pem" ["other"] "k.pem" none [1, 2, 3]
    false "private key requires password" (by decide) rfl rfl (by decide)

/-- Claim C10: any password specifier that does not begin with `file=`,
`pass=` or `fd=` resolves to the bytes of the string itself with no
error; in particular a misspelled prefix silently becomes the literal
password. -/
theorem processPwdString_literal_fallback (env : KeyEnv) (s : String)
    (h1 : strStartsWith s "file=" = false)
    (h2 : strStartsWith s "pass=" = false)
    (h3 : strStartsWith s "fd=" = false) :
    processPwdString env s = .ok (strBytes s) := by
  simp [processPwdString, h1, h2, h3]

/-- Witness for Claim C10: the malformed prefix `pas=x` becomes the
literal password bytes of `pas=x` itself. -/
theorem processPwdString_literal_fallback_witness :
    processPwdString sampleEnv "pas=x" = .ok (strBytes "pas=x") :=
  processPwdString_literal_fallback sampleEnv "pas=x" (by decide) (by decide) (by decide)

/-- Claim C3: when the per-layer transform reports `modified = false`,
`EncryptImage` (and symmetrically `DecryptImage`) returns the original
image handle unchanged with a nil error and passes no record to the
image service's `Create`. -/
theorem EncryptImage_noop_when_unmodified (env : ClientEnv) (image : Image)
    (name : String) (opts : CryptOptConfig) (pl : List Platform)
    (alldescs : List Descriptor) (dEnc dDec : Descriptor)
    (hpl : parsePlatformArray env opts.Platforms = .ok pl)
    (hgd : env.getImageLayerDescriptors image.target = .ok alldescs)
    (hlease : env.lease = .ok ())
    (henc : env.encryptTransform
        (mkLayerFilter (filterLayerDescriptors env.heap env.matcher alldescs opts.Layers pl).2)
        = .ok (dEnc, false))
    (hdec : env.decryptTransform
        (mkLayerFilter (filterLayerDescriptors env.heap env.matcher alldescs opts.Layers pl).2)
        = .ok (dDec, false)) :
    EncryptImage env image name opts = (.ok image, [])
    ∧ DecryptImage env image name opts = (.ok image, []) := by
  constructor
  · simp [EncryptImage, createLayerFilter, hpl, hgd, hlease, henc]
  · simp [DecryptImage, createLayerFilter, hpl, hgd, hlease, hdec]

/-- Witness for Claim C3 against `sampleClientEnv`: both transforms
report no modification, so both calls return the original handle and
create nothing. -/
theorem EncryptImage_noop_when_unmodified_witness :
    EncryptImage sampleClientEnv sampleImage "newname" ⟨["linux/amd64"], [0]⟩
      = (.ok sampleImage, [])
    ∧ DecryptImage sampleClientEnv sampleImage "newname" ⟨["linux/amd64"], [0]⟩
      = (.ok sampleImage, []) :=
  EncryptImage_noop_when_unmodified sampleClientEnv sampleImage "newname"
    ⟨["linux/amd64"], [0]⟩ [⟨"linux", "amd64", ""⟩] [⟨"tar", "sha256:l1", 7, some 0⟩]
    ⟨"manifest", "sha256:top", 9, none⟩ ⟨"manifest", "sha256:top", 9, none⟩
    rfl rfl rfl rfl rfl

/-- Claim C7: serializing a `ProcessorPayload` into the type-tagged Any
envelope and deserializing with `UnmarshalLayerToolDecryptData` returns
a payload with the original decrypt configuration and descriptor; and
any well-formed envelope whose type tag is not the `ProcessorPayload`
URL is rejected with an error whose text contains that tag, whether the
tag is registered for another type or not registered at all. -/
theorem payload_roundtrip_and_tag_reject (reg : List String)
    (config : DecryptConfig) (desc : Descriptor) (a : AnyMsg)
    (htag : a.typeUrl ≠ payloadUrl) :
    UnmarshalLayerToolDecryptData reg (processorPayloadAny config desc)
      = .ok ⟨config, desc⟩
    ∧ ∃ e, UnmarshalLayerToolDecryptData reg a = .error e
        ∧ a.typeUrl.data <:+: e.data := by
  constructor
  · simp [UnmarshalLayerToolDecryptData, processorPayloadAny, marshalAnyPayload, unmarshalAny]
  · by_cases hreg : a.typeUrl ∈ reg
    · refine ⟨"received an unknown data type " ++ a.typeUrl, ?_, ?_⟩
      · simp [UnmarshalLayerToolDecryptData, unmarshalAny, htag, hreg]
      · exact ⟨("received an unknown data type ").data, [], by simp [String.data_append]⟩
    · refine ⟨"could not UnmarshalAny() the decrypt data: "
        ++ ("type with url " ++ a.typeUrl ++ ": not found"), ?_, ?_⟩
      · simp [UnmarshalLayerToolDecryptData, unmarshalAny, htag, hreg]
      · exact ⟨("could not UnmarshalAny() the decrypt data: ").data ++ ("type with url ").data,
          (": not found").data, by simp [String.data_append]⟩

/-- Witness for Claim C7: a concrete payload round-trips, and the
envelopes tagged with a different registered type and with an
unregistered type are both rejected with the tag in the error text. -/
theorem payload_roundtrip_and_tag_reject_witness :
    (UnmarshalLayerToolDecryptData ["com.example.Other"]
        (processorPayloadAny ⟨[("key", [[1]])]⟩ ⟨"tar", "sha256:l1", 7, none⟩)
      = .ok ⟨⟨[("key", [[1]])]⟩, ⟨"tar", "sha256:l1", 7, none⟩⟩)
    ∧ (∃ e, UnmarshalLayerToolDecryptData ["com.example.Other"]
          ⟨"com.example.Other", .other [9]⟩ = .error e
        ∧ ("com.example.Other").data <:+: e.data)
    ∧ (∃ e, UnmarshalLayerToolDecryptData ["com.example.Other"]
          ⟨"com.example.Unknown", .other [9]⟩ = .error e
        ∧ ("com.example.Unknown").data <:+: e.data) :=
  ⟨(payload_roundtrip_and_tag_reject ["com.example.Other"] ⟨[("key", [[1]])]⟩
      ⟨"tar", "sha256:l1", 7, none⟩ ⟨"com.example.Other", .other [9]⟩ (by decide)).1,
   (payload_roundtrip_and_tag_reject ["com.example.Other"] ⟨[("key", [[1]])]⟩
      ⟨"tar", "sha256:l1", 7, none⟩ ⟨"com.example.Other", .other [9]⟩ (by decide)).2,
   (payload_roundtrip_and_tag_reject ["com.example.Other"] ⟨[("key", [[1]])]⟩
      ⟨"tar", "sha256:l1", 7, none⟩ ⟨"com.example.Unknown", .other [9]⟩ (by decide)).2⟩

lemma streamCopyLoop_out :
    ∀ (n : Nat) (content : List Nat), content.length = n →
      ∀ (term : Option String) (out : List Nat),
        streamCopyLoop content term out
          = (out ++ content, term.map fun e => "could not copy data: " ++ e) := by
  intro n
  induction n using Nat.strong_induction_on with
  | _ n ih =>
    intro content hn term out
    rw [streamCopyLoop.eq_def]
    by_cases h : chunkSize ≤ content.length
    · rw [dif_pos h]
      have hck : 0 < chunkSize := by norm_num [chunkSize]
      have hlt : (content.drop chunkSize).length < n := by
        simp only [List.length_drop]
        omega
      rw [ih _ hlt (content.drop chunkSize) rfl term (out ++ content.take chunkSize)]
      rw [List.append_assoc, List.take_append_drop]
    · rw [dif_neg h]
      cases term <;> simp

/-- Claim C8: the stream command's copy loop moves the decrypted
plaintext to the output in chunks of `10*1024` bytes, writes the whole
stream, ends with a nil error exactly when the source ends with clean
end-of-stream, and returns the (wrapped) error for any other failure. -/
theorem streamCopyLoop_spec (content : List Nat) (term : Option String) :
    streamCopyLoop content term []
      = (content, term.map fun e => "could not copy data: " ++ e)
    ∧ chunkSize = 10 * 1024 := by
  refine ⟨?_, rfl⟩
  simpa using streamCopyLoop_out content.length content rfl term []

lemma backendUnion_assoc (a b c : List Backend) :
    backendUnion (backendUnion a b) c = backendUnion a (backendUnion b c) := by
  unfold backendUnion
  have hfil : (List.filter (fun x =>
        decide (x ∉ a ++ List.filter (fun x => decide (x ∉ a)) b)) c)
      = List.filter (fun y => decide (y ∉ a) && decide (y ∉ b)) c := by
    apply List.filter_congr
    intro x _
    by_cases ha : x ∈ a <;> by_cases hb : x ∈ b <;>
      simp [ha, hb, List.mem_append, List.mem_filter]
  rw [List.append_assoc, List.filter_append, List.filter_filter, hfil]

lemma backendUnion_nil_left (b : List Backend) : backendUnion [] b = b := by
  simp [backendUnion]

lemma backendUnion_nil_right (a : List Backend) : backendUnion a [] = a := by
  simp [backendUnion]

lemma backendUnion_self (a : List Backend) : backendUnion a a = a := by
  have h : (a.filter fun x => decide (x ∉ a)) = [] := by
    rw [List.filter_eq_nil_iff]
    intro x hx
    simp [hx]
  simp [backendUnion, h]

/-- Claim C9 (modelled from the spec): combination of crypto
configurations is associative, the empty configuration is a two-sided
identity (so combining empty configurations yields the empty
configuration), combining a configuration with itself duplicates no
backend material, and `CombineCryptoConfigs` is the in-order fold of the
binary combination starting from the empty configuration. -/
theorem CombineCryptoConfigs_monoid (c c1 c2 c3 : CryptoConfig) :
    combineTwo (combineTwo c1 c2) c3 = combineTwo c1 (combineTwo c2 c3)
    ∧ combineTwo emptyCryptoConfig c = c
    ∧ combineTwo c emptyCryptoConfig = c
    ∧ combineTwo c c = c
    ∧ CombineCryptoConfigs [] = emptyCryptoConfig
    ∧ CombineCryptoConfigs [c1, c2] = combineTwo c1 c2 := by
  have hid : ∀ x : CryptoConfig, combineTwo emptyCryptoConfig x = x := by
    intro x
    simp [combineTwo, emptyCryptoConfig, backendUnion_nil_left]
  refine ⟨?_, hid c, ?_, ?_, rfl, ?_⟩
  · simp [combineTwo, backendUnion_assoc]
  · simp [combineTwo, emptyCryptoConfig, backendUnion_nil_right]
  · simp [combineTwo, backendUnion_self]
  · simp [CombineCryptoConfigs, hid]

end Cryptd
